import Mathlib

/-!
Shallow embedding of the GORM tag validation engine of `gorm-tool`
(`server/src/parser.ts`, `server/src/server.ts`, `server/src/types.ts`).
Strings are modelled as Lean `String` (lists of characters); the JavaScript
`Map` and `Set` containers are modelled as insertion-ordered association
lists, which matches the iteration-order guarantees of the originals.
The diagnostics array that the source mutates in place is modelled by
returning the list of diagnostics each step emits and concatenating the
pieces in the source's push order.
-/

/-- ASCII and Unicode white space, as JavaScript's regex `\s` class. -/
def jsIsSpace (c : Char) : Bool :=
  c = ' ' || c = '\t' || c = '\n' || c = '\r' || c = '\x0b' || c = '\x0c' ||
  c = '\u00a0' || c = '\u1680' || ('\u2000' ≤ c && c ≤ '\u200a') ||
  c = '\u2028' || c = '\u2029' || c = '\u202f' || c = '\u205f' ||
  c = '\u3000' || c = '\ufeff'

/-- JavaScript's regex `\w` class. -/
def jsIsWordChar (c : Char) : Bool :=
  ('A' ≤ c && c ≤ 'Z') || ('a' ≤ c && c ≤ 'z') || ('0' ≤ c && c ≤ '9') || c = '_'

/-- `String.prototype.trim` on the character list. -/
def trimChars (cs : List Char) : List Char :=
  ((cs.dropWhile jsIsSpace).reverse.dropWhile jsIsSpace).reverse

/-- `String.prototype.trim`. -/
def trimS (s : String) : String := ⟨trimChars s.data⟩

/-- `String.prototype.toLowerCase` (ASCII range, which is all the engine compares). -/
def lowerS (s : String) : String := ⟨s.data.map Char.toLower⟩

/-- `String.prototype.split` with a one-character separator. -/
def splitOnChar (sep : Char) : List Char → List (List Char)
  | [] => [[]]
  | c :: rest =>
    if c = sep then [] :: splitOnChar sep rest
    else
      match splitOnChar sep rest with
      | [] => [[c]]
      | g :: gs => (c :: g) :: gs

/-- Index of the first `':'`, as `String.prototype.indexOf(':')` (None for -1). -/
def firstColonIdx : List Char → Option Nat
  | [] => none
  | c :: rest => if c = ':' then some 0 else (firstColonIdx rest).map (· + 1)

/-- One tag entry split at its first colon:
`colonIndex > 0 ? (trim before, trim after) : (trim whole, "")`
(parser.ts, `validateGormTags`, the head of the entry loop). -/
def splitPart (part : String) : String × String :=
  match firstColonIdx part.data with
  | some i =>
    if 0 < i then (trimS ⟨part.data.take i⟩, trimS ⟨part.data.drop (i + 1)⟩)
    else (trimS part, "")
  | none => (trimS part, "")

/-- `gormTag.split(';').map(trim).filter(nonEmpty)`. -/
def tagParts (gormTag : String) : List String :=
  ((splitOnChar ';' gormTag.data).map (fun cs => trimS ⟨cs⟩)).filter (fun p => p != "")

/-- `Array.prototype.join(', ')`. -/
def joinComma : List String → String
  | [] => ""
  | [s] => s
  | s :: rest => s ++ ", " ++ joinComma rest

/-- `types.ts`: one struct field (named `GormTag` there). -/
structure GormTag where
  name : String
  type : String
  gormTag : String
deriving DecidableEq

/-- `types.ts`: a parsed struct declaration. -/
structure GoStruct where
  name : String
  fields : List GormTag
deriving DecidableEq

/-- Diagnostic severity: `'error' | 'warning'`. -/
inductive Level where
  | error
  | warning
deriving DecidableEq

/-- `types.ts`: `GormDiagnostic`. -/
structure GormDiagnostic where
  structName : String
  fieldName : String
  tag : String
  message : String
  level : Level
  errorTag : Option String
deriving DecidableEq

/-- Result record of `checkQuoteClosure`. -/
structure QuoteCheck where
  hasError : Bool
  quoteType : Option String
  message : Option String
deriving DecidableEq

/-- The character scan of `checkQuoteClosure`: walks the value tracking
whether the position is inside a single- or double-quoted span, counting
unescaped quotes of each kind (a quote preceded by a backslash is skipped;
`prev` stands for `value[i - 1]`, `none` at the first character). -/
def quoteScan : List Char → Option Char → Nat → Nat → Bool → Bool → Nat × Nat
  | [], _, sq, dq, _, _ => (sq, dq)
  | c :: rest, prev, sq, dq, inS, inD =>
    if c = '\'' ∧ inD = false then
      if prev ≠ some '\\' then quoteScan rest (some c) (sq + 1) dq (!inS) inD
      else quoteScan rest (some c) sq dq inS inD
    else if c = '"' ∧ inS = false then
      if prev ≠ some '\\' then quoteScan rest (some c) sq (dq + 1) inS (!inD)
      else quoteScan rest (some c) sq dq inS inD
    else quoteScan rest (some c) sq dq inS inD

/-- The unescaped quote counts of a value (single, double). -/
def quoteCounts (value : String) : Nat × Nat :=
  quoteScan value.data none 0 0 false false

/-- `parser.ts`: `checkQuoteClosure`. -/
def checkQuoteClosure (value : String) : QuoteCheck :=
  let counts := quoteCounts value
  let singleQuoteCount := counts.1
  let doubleQuoteCount := counts.2
  if singleQuoteCount % 2 ≠ 0 then
    { hasError := true, quoteType := some "single",
      message := some ("Found " ++ toString singleQuoteCount ++
        " single quotes, expected even number for proper closure.") }
  else if doubleQuoteCount % 2 ≠ 0 then
    { hasError := true, quoteType := some "double",
      message := some ("Found " ++ toString doubleQuoteCount ++
        " double quotes, expected even number for proper closure.") }
  else { hasError := false, quoteType := none, message := none }

/-- Classification returned by `isValidGormKey`. -/
structure KeyValidation where
  valid : Bool
  recommended : Bool
deriving DecidableEq

/-- General tags (field property configuration) - recommended. -/
def generalTags : List String :=
  ["column", "type", "size", "primarykey", "autoincrement", "not null",
   "default", "unique", "embedded", "embeddedprefix", "-"]

/-- Index and constraint tags - recommended. -/
def indexConstraintTags : List String :=
  ["index", "uniqueindex", "priority", "check", "constraint"]

/-- Time and soft delete tags - recommended. -/
def timeTags : List String := ["autocreatetime", "autoupdatetime"]

/-- Numeric precision tags - recommended. -/
def precisionTags : List String := ["precision", "scale", "autoincrementincrement"]

/-- Permission control tags - recommended (the list local to `isValidGormKey`). -/
def permissionClassTags : List String := ["<-", "->", "comment"]

/-- Serialization tags - recommended. -/
def serializerTags : List String := ["serializer"]

/-- Advanced index options - recommended. -/
def indexOptions : List String :=
  ["sort", "length", "class", "where", "option", "composite"]

/-- Relationship tags - valid but not recommended. -/
def relationTags : List String :=
  ["foreignkey", "references", "many2many", "joinforeignkey",
   "joinreferences", "polymorphic", "polymorphicvalue"]

/-- Deprecated association tags - invalid. -/
def deprecatedAssociationTags : List String :=
  ["association_foreignkey", "associationforeignkey", "associationreferences",
   "joincolumn", "associationjoincolumn"]

/-- Deprecated GORM tags - valid but deprecated. -/
def deprecatedTags : List String :=
  ["primary_key", "foreign_key", "association_foreign_key", "association_save_reference",
   "auto_create_time", "auto_update_time", "foreignkey_tag", "association_foreignkey_tag"]

/-- `parser.ts`: `isValidGormKey`. -/
def isValidGormKey (key : String) : KeyValidation :=
  let lowerKey := lowerS key
  if generalTags.contains lowerKey || indexConstraintTags.contains lowerKey ||
     timeTags.contains lowerKey || precisionTags.contains lowerKey ||
     permissionClassTags.contains lowerKey || serializerTags.contains lowerKey ||
     indexOptions.contains lowerKey then
    { valid := true, recommended := true }
  else if relationTags.contains lowerKey then { valid := true, recommended := false }
  else if deprecatedTags.contains lowerKey then { valid := true, recommended := false }
  else if deprecatedAssociationTags.contains lowerKey then { valid := false, recommended := false }
  else { valid := false, recommended := false }

/-- `originalKey || key`. -/
def errTagOf (originalKey key : String) : String :=
  if originalKey = "" then key else originalKey

/-- JavaScript `/^\d+$/.test value`. -/
def jsDigitsTest (s : String) : Bool := !s.data.isEmpty && s.data.all Char.isDigit

/-- `parser.ts`: `validateTagValue` (`key` arrives lowercased; `originalKey` keeps
the display casing). Returns the diagnostics the source pushes, in push order. -/
def validateTagValue (key value structName fieldName tag originalKey : String) :
    List GormDiagnostic :=
  let errTag := some (errTagOf originalKey key)
  match key with
  | "size" =>
    if value ≠ "" ∧ jsDigitsTest value = false then
      [⟨structName, fieldName, tag,
        "Invalid size value '" ++ value ++ "'. Size must be a positive integer.",
        .error, errTag⟩]
    else []
  | "precision" =>
    if value ≠ "" ∧ jsDigitsTest value = false then
      [⟨structName, fieldName, tag,
        "Invalid precision value '" ++ value ++ "'. Precision must be a positive integer.",
        .error, errTag⟩]
    else []
  | "scale" =>
    if value ≠ "" ∧ jsDigitsTest value = false then
      [⟨structName, fieldName, tag,
        "Invalid scale value '" ++ value ++ "'. Scale must be a positive integer.",
        .error, errTag⟩]
    else []
  | "autoincrementincrement" =>
    if value ≠ "" ∧ jsDigitsTest value = false then
      [⟨structName, fieldName, tag,
        "Invalid autoIncrementIncrement value '" ++ value ++ "'. Must be a positive integer.",
        .error, errTag⟩]
    else []
  | "type" =>
    if value = "" ∨ trimS value = "" then
      [⟨structName, fieldName, tag, "Type tag requires a value.", .error, errTag⟩]
    else []
  | "column" =>
    if value = "" ∨ trimS value = "" then
      [⟨structName, fieldName, tag, "Column tag requires a column name.", .error, errTag⟩]
    else []
  | "check" =>
    if value = "" ∨ trimS value = "" then
      [⟨structName, fieldName, tag, "Check constraint requires a condition.", .error, errTag⟩]
    else []
  | "comment" =>
    if value = "" ∨ trimS value = "" then
      [⟨structName, fieldName, tag, "Comment tag requires a comment text.", .warning, errTag⟩]
    else
      (if (checkQuoteClosure value).hasError then
        [⟨structName, fieldName, tag,
          "Comment value has unmatched " ++ ((checkQuoteClosure value).quoteType.getD "") ++
          " quotes. " ++ ((checkQuoteClosure value).message.getD ""),
          .error, errTag⟩]
      else []) ++
      (if value.data.contains '\'' ∧ value.data.contains '"' then
        [⟨structName, fieldName, tag,
          "Comment value contains both single and double quotes. Consider using consistent quote style or proper escaping.",
          .warning, errTag⟩]
      else [])
  | "default" =>
    if value ≠ "" ∧ value.data.contains '\'' ∧ value.data.contains '"' then
      [⟨structName, fieldName, tag, "Default value should use consistent quote style.",
        .warning, errTag⟩]
    else []
  | "serializer" =>
    if value ≠ "" ∧ (["json", "gob", "unixtime"].contains (lowerS value)) = false then
      [⟨structName, fieldName, tag,
        "Invalid serializer '" ++ value ++ "'. Valid options: " ++
        joinComma ["json", "gob", "unixtime"] ++ ".",
        .error, errTag⟩]
    else []
  | "sort" =>
    if value ≠ "" ∧ (["asc", "desc"].contains (lowerS value)) = false then
      [⟨structName, fieldName, tag,
        "Invalid sort value '" ++ value ++ "'. Valid options: " ++
        joinComma ["asc", "desc"] ++ ".",
        .error, errTag⟩]
    else []
  | "length" =>
    if value ≠ "" ∧ jsDigitsTest value = false then
      [⟨structName, fieldName, tag,
        "Invalid length value '" ++ value ++ "'. Length must be a positive integer.",
        .error, errTag⟩]
    else []
  | "priority" =>
    if value ≠ "" ∧ jsDigitsTest value = false then
      [⟨structName, fieldName, tag,
        "Invalid priority value '" ++ value ++ "'. Priority must be a positive integer.",
        .error, errTag⟩]
    else []
  | "autocreatetime" =>
    if value ≠ "" ∧ (["", "nano", "milli"].contains (lowerS value)) = false then
      [⟨structName, fieldName, tag,
        "Invalid time precision '" ++ value ++ "'. Valid options: '', 'nano', 'milli'.",
        .error, errTag⟩]
    else []
  | "autoupdatetime" =>
    if value ≠ "" ∧ (["", "nano", "milli"].contains (lowerS value)) = false then
      [⟨structName, fieldName, tag,
        "Invalid time precision '" ++ value ++ "'. Valid options: '', 'nano', 'milli'.",
        .error, errTag⟩]
    else []
  | "<-" =>
    if value ≠ "" ∧ (["create", "update", "false"].contains (lowerS value)) = false then
      [⟨structName, fieldName, tag,
        "Invalid write permission '" ++ value ++ "'. Valid options: 'create', 'update', 'false'.",
        .error, errTag⟩]
    else []
  | "->" =>
    if value ≠ "" ∧ lowerS value ≠ "false" then
      [⟨structName, fieldName, tag,
        "Invalid read permission '" ++ value ++ "'. Valid option: 'false'.",
        .error, errTag⟩]
    else []
  | "foreignkey" =>
    if value = "" ∨ trimS value = "" then
      [⟨structName, fieldName, tag, "ForeignKey tag requires a field name.", .error, errTag⟩]
    else []
  | "references" =>
    if value = "" ∨ trimS value = "" then
      [⟨structName, fieldName, tag, "References tag requires a field name.", .error, errTag⟩]
    else []
  | "many2many" =>
    if value = "" ∨ trimS value = "" then
      [⟨structName, fieldName, tag, "Many2many tag requires a table name.", .error, errTag⟩]
    else []
  | "joinforeignkey" =>
    if value = "" ∨ trimS value = "" then
      [⟨structName, fieldName, tag, key ++ " tag requires a field name.", .error, errTag⟩]
    else []
  | "joinreferences" =>
    if value = "" ∨ trimS value = "" then
      [⟨structName, fieldName, tag, key ++ " tag requires a field name.", .error, errTag⟩]
    else []
  | "embeddedprefix" =>
    if value = "" ∨ trimS value = "" then
      [⟨structName, fieldName, tag, "EmbeddedPrefix tag requires a prefix value.", .warning, errTag⟩]
    else []
  | "constraint" =>
    if value = "" ∨ trimS value = "" then
      [⟨structName, fieldName, tag,
        "Constraint tag requires constraint options (e.g., OnUpdate:CASCADE,OnDelete:SET NULL).",
        .error, errTag⟩]
    else
      (splitOnChar ',' (lowerS value).data).flatMap (fun partCs =>
        let option : String := ⟨partCs.takeWhile (fun c => c ≠ ':')⟩
        if option ≠ "" ∧ (["onupdate", "ondelete"].contains (trimS option)) = false then
          [⟨structName, fieldName, tag,
            "Invalid constraint option '" ++ option ++ "'. Valid options: OnUpdate, OnDelete.",
            .warning, errTag⟩]
        else [])
  | "-" =>
    if value ≠ "" ∧ (["", "all", "migration"].contains (lowerS value)) = false then
      [⟨structName, fieldName, tag,
        "Invalid ignore option '" ++ value ++ "'. Valid options: " ++
        joinComma ["", "all", "migration"] ++ ".",
        .error, errTag⟩]
    else []
  | _ => []

/-- `parser.ts`: `validateTagCombinations` (`keys` is the keys-seen-so-far set,
with the current entry's key already added, in insertion order). -/
def validateTagCombinations (keys : List String)
    (currentKey structName fieldName tag originalKey : String) : List GormDiagnostic :=
  let errTag := some (errTagOf originalKey currentKey)
  (if currentKey = "primarykey" then
    (if keys.contains "unique" then
      [⟨structName, fieldName, tag,
        "'primaryKey' automatically implies uniqueness. Remove 'unique' tag.",
        .warning, errTag⟩]
    else []) ++
    (if keys.contains "not null" then
      [⟨structName, fieldName, tag,
        "'primaryKey' automatically implies 'not null'. Remove 'not null' tag.",
        .warning, errTag⟩]
    else [])
  else []) ++
  (if keys.contains "-" ∧ 1 < keys.length then
    [⟨structName, fieldName, tag,
      "Field marked as ignored ('-') cannot have other tags: " ++
      joinComma (keys.filter (fun k => k != "-")) ++ ". Remove conflicting tags.",
      .error, errTag⟩]
  else []) ++
  (let foundPermissionTags := ["<-", "->", "-"].filter (fun t => keys.contains t)
   if 1 < foundPermissionTags.length then
    [⟨structName, fieldName, tag,
      "Conflicting permission tags: " ++ joinComma foundPermissionTags ++
      ". Use only one permission control tag.",
      .error, errTag⟩]
  else []) ++
  (if keys.contains "autocreatetime" ∧ keys.contains "autoupdatetime" ∧
      currentKey = "autoupdatetime" then
    [⟨structName, fieldName, tag,
      "Field has both creation and update time tracking. Ensure this is intentional.",
      .warning, errTag⟩]
  else []) ++
  (if keys.contains "index" ∧ keys.contains "uniqueindex" then
    [⟨structName, fieldName, tag,
      "Field has both 'index' and 'uniqueIndex'. Consider using only 'uniqueIndex'.",
      .warning, errTag⟩]
  else []) ++
  (if keys.contains "foreignkey" ∧ keys.contains "references" = false then
    [⟨structName, fieldName, tag,
      "'foreignKey' should be used together with 'references' for proper relationship definition.",
      .warning, errTag⟩]
  else []) ++
  (if keys.contains "many2many" ∧ (keys.contains "foreignkey" ∨ keys.contains "references") then
    [⟨structName, fieldName, tag,
      "'many2many' cannot be used with 'foreignKey' or 'references'. Use association struct instead.",
      .error, errTag⟩]
  else []) ++
  (if keys.contains "embedded" ∧ keys.contains "column" then
    [⟨structName, fieldName, tag,
      "'embedded' fields expand into multiple columns, 'column' tag is not applicable.",
      .error, errTag⟩]
  else [])

/-- `parser.ts`: `validateFieldLevelRules` pushes nothing (its body is comments only). -/
def validateFieldLevelRules (_keys : List String) (_structName _fieldName _tag : String) :
    List GormDiagnostic := []

/-- The per-struct mutable state of `validateGormTags`: the `columnValues` map
(value to owning field), the `primaryKeyFields` array and the `indexNames`
map, all in insertion order. -/
structure StructState where
  columnValues : List (String × String)
  primaryKeyFields : List String
  indexNames : List (String × List String)
deriving DecidableEq

/-- `columnValues.get(value)` (with `has` as `isSome`). -/
def lookupCol (m : List (String × String)) (k : String) : Option String :=
  (m.find? (fun e => e.1 == k)).map (·.2)

/-- `if (!indexNames.has(v)) indexNames.set(v, []); indexNames.get(v)!.push(f)`. -/
def idxAdd (m : List (String × List String)) (value fieldName : String) :
    List (String × List String) :=
  if m.any (fun e => e.1 == value) then
    m.map (fun e => if e.1 == value then (e.1, e.2 ++ [fieldName]) else e)
  else m ++ [(value, [fieldName])]

/-- The body of the entry loop of `validateGormTags` for one entry `part`:
duplicate-key check, set insertion, primary-key recording, the two
primaryKey/unique conflict checks, column duplicate check, index-name
recording, key classification, `validateTagValue`, `validateTagCombinations`
- in source order. Returns the updated `(keys, state)` and the diagnostics
pushed for this entry. -/
def processPart (sn : String) (f : GormTag) (keys : List String) (st : StructState)
    (part : String) : (List String × StructState) × List GormDiagnostic :=
  let kv := splitPart part
  let key := kv.1
  let value := kv.2
  let lowerKey := lowerS key
  let dupDiags :=
    if keys.contains lowerKey then
      [⟨sn, f.name, f.gormTag, "Duplicate GORM tag key '" ++ key ++ "' in field",
        .error, some key⟩]
    else []
  let keys2 := if keys.contains lowerKey then keys else keys ++ [lowerKey]
  let pk2 :=
    if lowerKey = "primarykey" then st.primaryKeyFields ++ [f.name]
    else st.primaryKeyFields
  let conf1 :=
    if lowerKey = "primarykey" ∧ keys2.contains "unique" then
      [⟨sn, f.name, f.gormTag, "'primaryKey' and 'unique' cannot be used together",
        .error, some key⟩]
    else []
  let conf2 :=
    if lowerKey = "unique" ∧ keys2.contains "primarykey" then
      [⟨sn, f.name, f.gormTag, "'unique' and 'primaryKey' cannot be used together",
        .error, some key⟩]
    else []
  let colStep :=
    if lowerKey = "column" ∧ value ≠ "" then
      match lookupCol st.columnValues value with
      | some existingFieldName =>
        ([⟨sn, f.name, f.gormTag,
           "Duplicate column name '" ++ value ++ "' already used by field '" ++
           existingFieldName ++ "'. Each column name must be unique within the struct.",
           .error, some key⟩], st.columnValues)
      | none => ([], st.columnValues ++ [(value, f.name)])
    else ([], st.columnValues)
  let idx2 :=
    if (lowerKey = "index" ∨ lowerKey = "uniqueindex") ∧ value ≠ "" then
      idxAdd st.indexNames value f.name
    else st.indexNames
  let kc := isValidGormKey lowerKey
  let classDiags :=
    if kc.valid = false then
      [⟨sn, f.name, f.gormTag,
        "Unknown GORM tag '" ++ key ++ "'. Check GORM documentation for valid tags.",
        .error, some key⟩]
    else if kc.recommended = false then
      [⟨sn, f.name, f.gormTag,
        "GORM tag '" ++ key ++ "' is deprecated or not recommended. Consider using alternative approaches.",
        .warning, some key⟩]
    else []
  let valueDiags := validateTagValue lowerKey value sn f.name f.gormTag key
  let comboDiags := validateTagCombinations keys2 lowerKey sn f.name f.gormTag key
  ((keys2, ⟨colStep.2, pk2, idx2⟩),
   dupDiags ++ conf1 ++ conf2 ++ colStep.1 ++ classDiags ++ valueDiags ++ comboDiags)

/-- Runs the entry loop over a field's tag entries, threading `keys` and the
struct state and concatenating the emitted diagnostics in order. -/
def runParts (sn : String) (f : GormTag) :
    List String → StructState → List String → (List String × StructState) × List GormDiagnostic
  | keys, st, [] => ((keys, st), [])
  | keys, st, part :: rest =>
    let step := processPart sn f keys st part
    let next := runParts sn f step.1.1 step.1.2 rest
    (next.1, step.2 ++ next.2)

/-- `!field.gormTag || field.gormTag.trim().length === 0`: the field is skipped. -/
def skipField (f : GormTag) : Bool := f.gormTag == "" || trimS f.gormTag == ""

/-- The field loop of `validateGormTags`: skipped fields leave everything
unchanged; a processed field runs the entry loop with a fresh `keys` set,
then `validateFieldLevelRules`, and marks `hasGormTags`. -/
def runFields (sn : String) :
    StructState → Bool → List GormTag → (StructState × Bool) × List GormDiagnostic
  | st, hasTags, [] => ((st, hasTags), [])
  | st, hasTags, f :: rest =>
    if skipField f then runFields sn st hasTags rest
    else
      let r := runParts sn f [] st (tagParts f.gormTag)
      let fieldLevel := validateFieldLevelRules r.1.1 sn f.name f.gormTag
      let next := runFields sn r.1.2 true rest
      (next.1, (r.2 ++ fieldLevel) ++ next.2)

/-- The message of a multiple-primary-key error. -/
def pkMsg : String := "Multiple primary keys found in struct. Only one primary key is allowed."

/-- The struct-wide pass of `validateGormTags`: the multiple-primary-key check
followed by the shared-index-name check (both resolve field names back to
fields with `struct.fields.find`). -/
def structWideDiags (sn : String) (fields : List GormTag) (st : StructState) :
    List GormDiagnostic :=
  (if 1 < st.primaryKeyFields.length then
    st.primaryKeyFields.flatMap (fun fieldName =>
      match fields.find? (fun f => f.name == fieldName) with
      | some f => [⟨sn, f.name, f.gormTag, pkMsg, .error, none⟩]
      | none => [])
  else []) ++
  st.indexNames.flatMap (fun entry =>
    if 1 < entry.2.length then
      entry.2.flatMap (fun fieldName =>
        match fields.find? (fun f => f.name == fieldName) with
        | some f =>
          [⟨sn, f.name, f.gormTag,
            "Index '" ++ entry.1 ++ "' is used by multiple fields: " ++
            joinComma entry.2 ++ ". Ensure this is intended for composite index.",
            .warning, none⟩]
        | none => [])
    else [])

/-- All diagnostics `validateGormTags` produces for one struct: nothing for a
struct with no fields, the field pass alone when no field carried a tag
literal, otherwise the field pass followed by the struct-wide pass. -/
def validateStructDiags (s : GoStruct) : List GormDiagnostic :=
  if s.fields.isEmpty then []
  else
    let r := runFields s.name ⟨[], [], []⟩ false s.fields
    if r.1.2 = false then r.2
    else r.2 ++ structWideDiags s.name s.fields r.1.1

/-- `parser.ts`: `validateGormTags`. -/
def validateGormTags (structs : List GoStruct) : List GormDiagnostic :=
  if structs.isEmpty then [] else structs.flatMap validateStructDiags

/-- Characters of the regex class `[\w[\]*.]` (a field's declared type). -/
def isTypeChar (c : Char) : Bool :=
  jsIsWordChar c || c = '[' || c = ']' || c = '*' || c = '.'

/-- `takeWhile`/`dropWhile` pair, the maximal-munch step of a regex character class. -/
def spanP (p : Char → Bool) (cs : List Char) : List Char × List Char :=
  (cs.takeWhile p, cs.dropWhile p)

/-- Drops a literal prefix, failing when it does not match. -/
def dropLit : List Char → List Char → Option (List Char)
  | [], cs => some cs
  | _ :: _, [] => none
  | l :: ls, c :: cs => if c = l then dropLit ls cs else none

/-- The backtick character (written by code point to keep source text plain). -/
def backtick : Char := Char.ofNat 96

/-- Opening brace character. -/
def lbrace : Char := Char.ofNat 123

/-- Closing brace character. -/
def rbrace : Char := Char.ofNat 125

/-- A prefix test over characters (`String.prototype.startsWith`). -/
def isPrefixL : List Char → List Char → Bool
  | [], _ => true
  | _ :: _, [] => false
  | a :: as, b :: bs => a == b && isPrefixL as bs

/-- `String.prototype.includes` over characters. -/
def containsSub (sub : List Char) : List Char → Bool
  | [] => isPrefixL sub []
  | c :: rest => isPrefixL sub (c :: rest) || containsSub sub rest

/-- First index of a substring (`String.prototype.indexOf`, None for -1). -/
def idxOfSub (sub : List Char) : List Char → Option Nat
  | [] => if isPrefixL sub [] then some 0 else none
  | c :: rest =>
    if isPrefixL sub (c :: rest) then some 0
    else (idxOfSub sub rest).map (· + 1)

/-- `String.prototype.indexOf` with the JavaScript -1 convention. -/
def jsIndexOf (hay sub : List Char) : Int :=
  match idxOfSub sub hay with
  | some n => (n : Int)
  | none => -1

/-- The body group of the struct regex
`[^{}]*(?:\{[^{}]*\}[^{}]*)*` followed by the closing `\}`: non-brace runs
interleaved with one-level-nested brace pairs, up to the matching close.
Returns the matched body and the remainder after the closing brace. The
fuel argument only bounds the recursion; `length + 1` is always enough. -/
def matchStructBody : Nat → List Char → Option (List Char × List Char)
  | 0, _ => none
  | fuel + 1, cs =>
    let s1 := spanP (fun c => !(c == lbrace || c == rbrace)) cs
    match s1.2 with
    | [] => none
    | c :: rest =>
      if c = rbrace then some (s1.1, rest)
      else
        let s2 := spanP (fun ch => !(ch == lbrace || ch == rbrace)) rest
        match s2.2 with
        | c2 :: rest2 =>
          if c2 = rbrace then
            match matchStructBody fuel rest2 with
            | some br => some (s1.1 ++ lbrace :: (s2.1 ++ rbrace :: br.1), br.2)
            | none => none
          else none
        | [] => none

/-- One attempt of the struct regex
`type\s+(\w+)\s+struct\s*\{([^{}]*(?:\{[^{}]*\}[^{}]*)*)\}` anchored at the
head of `cs`: returns the struct name, the raw field text and the remainder
after the match. The character classes at each boundary are disjoint, so
greedy maximal munch is exactly the regex's backtracking behaviour. -/
def tryMatchStruct (cs : List Char) : Option (String × String × List Char) :=
  match dropLit "type".data cs with
  | none => none
  | some r1 =>
    let sp1 := spanP jsIsSpace r1
    if sp1.1.isEmpty then none
    else
      let w := spanP jsIsWordChar sp1.2
      if w.1.isEmpty then none
      else
        let sp2 := spanP jsIsSpace w.2
        if sp2.1.isEmpty then none
        else
          match dropLit "struct".data sp2.2 with
          | none => none
          | some r2 =>
            let sp3 := spanP jsIsSpace r2
            match sp3.2 with
            | c :: rest =>
              if c = lbrace then
                match matchStructBody (rest.length + 1) rest with
                | some br => some (⟨w.1⟩, ⟨br.1⟩, br.2)
                | none => none
              else none
            | [] => none

/-- The `while ((match = structRegex.exec(source)) !== null)` loop: scan for
the leftmost match, emit it, continue after it; on failure advance one
character. Fuel bounds the recursion; `length + 1` is always enough. -/
def scanStructsRaw : Nat → List Char → List (String × String)
  | 0, _ => []
  | fuel + 1, cs =>
    match tryMatchStruct cs with
    | some r => (r.1, r.2.1) :: scanStructsRaw fuel r.2.2
    | none =>
      match cs with
      | [] => []
      | _ :: rest => scanStructsRaw fuel rest

/-- Finds `gorm:"([^"]*)"` anywhere in the tag text (first pattern of
`parseGormTag`): at each candidate start, the capture succeeds only when a
closing double quote follows. -/
def findGormDouble : List Char → Option String
  | [] => none
  | c :: rest =>
    match dropLit "gorm:\"".data (c :: rest) with
    | some after =>
      let s := spanP (fun ch => ch != '"') after
      match s.2 with
      | _ :: _ => some ⟨s.1⟩
      | [] => findGormDouble rest
    | none => findGormDouble rest

/-- Finds `gorm:'([^']*)'` anywhere in the tag text (second pattern). -/
def findGormSingle : List Char → Option String
  | [] => none
  | c :: rest =>
    match dropLit "gorm:'".data (c :: rest) with
    | some after =>
      let s := spanP (fun ch => ch != '\'')  after
      match s.2 with
      | _ :: _ => some ⟨s.1⟩
      | [] => findGormSingle rest
    | none => findGormSingle rest

/-- Finds ``gorm:([^\s;`]+)`` anywhere in the tag text (third pattern). -/
def findGormBare : List Char → Option String
  | [] => none
  | c :: rest =>
    match dropLit "gorm:".data (c :: rest) with
    | some after =>
      let s := spanP (fun ch => !(jsIsSpace ch || ch == ';' || ch == backtick)) after
      if s.1.isEmpty then findGormBare rest else some ⟨s.1⟩
    | none => findGormBare rest

/-- `parser.ts`: `parseGormTag` - the three quoting conventions tried in order,
empty string when none matches. -/
def parseGormTag (tags : String) : String :=
  if tags = "" ∨ trimS tags = "" then ""
  else
    match findGormDouble tags.data with
    | some v => v
    | none =>
      match findGormSingle tags.data with
      | some v => v
      | none =>
        match findGormBare tags.data with
        | some v => v
        | none => ""

/-- The regex ``^\s*(\w+)\s+([\w[\]*.]+)\s*`([^`]*)` `` applied to a trimmed
field line: name, type and raw tag area. All adjacent character classes are
disjoint, so maximal munch is faithful. -/
def matchFieldWithTags (cs : List Char) : Option (String × String × String) :=
  let s0 := spanP jsIsSpace cs
  let w := spanP jsIsWordChar s0.2
  if w.1.isEmpty then none
  else
    let sp := spanP jsIsSpace w.2
    if sp.1.isEmpty then none
    else
      let ty := spanP isTypeChar sp.2
      if ty.1.isEmpty then none
      else
        let sp2 := spanP jsIsSpace ty.2
        match sp2.2 with
        | c :: rest =>
          if c = backtick then
            let tg := spanP (fun ch => ch != backtick) rest
            match tg.2 with
            | _ :: _ => some (⟨w.1⟩, ⟨ty.1⟩, ⟨tg.1⟩)
            | [] => none
          else none
        | [] => none

/-- The regex `^\s*(\w+)\s+([\w[\]*.]+)\s*$` applied to a trimmed field line. -/
def matchFieldNoTags (cs : List Char) : Option (String × String × String) :=
  let s0 := spanP jsIsSpace cs
  let w := spanP jsIsWordChar s0.2
  if w.1.isEmpty then none
  else
    let sp := spanP jsIsSpace w.2
    if sp.1.isEmpty then none
    else
      let ty := spanP isTypeChar sp.2
      if ty.1.isEmpty then none
      else
        let sp2 := spanP jsIsSpace ty.2
        match sp2.2 with
        | [] => some (⟨w.1⟩, ⟨ty.1⟩, "")
        | _ :: _ => none

/-- `parser.ts`: `parseFields` - line by line over the struct body, skipping
blank and `//` lines, trying the tagged then the untagged field pattern. -/
def parseFields (fieldsText : String) : List GormTag :=
  if fieldsText = "" ∨ trimS fieldsText = "" then []
  else
    (splitOnChar '\n' fieldsText.data).flatMap (fun lineCs =>
      let trimmedLine := trimChars lineCs
      if trimmedLine.isEmpty then []
      else if isPrefixL "//".data trimmedLine then []
      else
        match matchFieldWithTags trimmedLine with
        | some r => [⟨r.1, r.2.1, parseGormTag r.2.2⟩]
        | none =>
          match matchFieldNoTags trimmedLine with
          | some r => [⟨r.1, r.2.1, parseGormTag r.2.2⟩]
          | none => [])

/-- `parser.ts`: `parseGoStructs` - empty input short-circuits; each regex
match yields a struct unless its name or body capture is empty. -/
def parseGoStructs (source : String) : List GoStruct :=
  if source = "" ∨ trimS source = "" then []
  else
    (scanStructsRaw (source.data.length + 1) source.data).flatMap (fun nb =>
      if nb.1 = "" ∨ nb.2 = "" then []
      else [⟨nb.1, parseFields nb.2⟩])

/-- A line/character position (`character` keeps the JavaScript number,
which `indexOf` can make -1). -/
structure Position where
  line : Nat
  character : Int
deriving DecidableEq

/-- A two-position range; the source's `end` field is a Lean keyword and is
named `stop` here. -/
structure FieldRange where
  start : Position
  stop : Position
deriving DecidableEq

/-- The in-loop return of `findFieldRange` for a matched field line: the
offending key's span inside the `gorm:` area when present, otherwise the
field-name span. -/
def fieldLineRange (line : String) (fieldName : String) (errorTag : Option String)
    (i : Nat) : FieldRange :=
  let viaTag : Option FieldRange :=
    match errorTag with
    | some t =>
      if t ≠ "" ∧ containsSub "gorm:".data line.data then
        let gormTagStart := jsIndexOf line.data "gorm:".data
        let gormTagContent := line.data.drop gormTagStart.toNat
        let errorTagIndex := jsIndexOf gormTagContent t.data
        if errorTagIndex ≠ -1 then
          some ⟨⟨i, gormTagStart + errorTagIndex⟩,
                ⟨i, gormTagStart + errorTagIndex + (t.data.length : Int)⟩⟩
        else none
      else none
    | none => none
  match viaTag with
  | some r => r
  | none =>
    let lineStart := jsIndexOf line.data fieldName.data
    ⟨⟨i, lineStart⟩, ⟨i, lineStart + (fieldName.data.length : Int)⟩⟩

/-- The after-loop fallbacks of `findFieldRange`: the struct-name span on the
declaration line when the struct was found, else a range at document start
from character 0 to character 1. -/
def findFieldRangeFinish (structName : String) (found : Option (Nat × String)) : FieldRange :=
  match found with
  | some is =>
    let structNameStart := jsIndexOf is.2.data structName.data
    ⟨⟨is.1, structNameStart⟩, ⟨is.1, structNameStart + (structName.data.length : Int)⟩⟩
  | none => ⟨⟨0, 0⟩, ⟨0, 1⟩⟩

/-- The line loop of `findFieldRange`: `found` carries
`(structStartLine, its line text)` once the struct declaration was seen. -/
def findFieldRangeAux (structName fieldName : String) (errorTag : Option String) :
    List String → Nat → Option (Nat × String) → FieldRange
  | [], _, found => findFieldRangeFinish structName found
  | line :: rest, i, found =>
    if containsSub ("type " ++ structName ++ " struct").data line.data then
      findFieldRangeAux structName fieldName errorTag rest (i + 1) (some (i, line))
    else
      match found with
      | some f =>
        if trimS line = "\x7d" then findFieldRangeFinish structName (some f)
        else if isPrefixL fieldName.data (trimS line).data then
          fieldLineRange line fieldName errorTag i
        else findFieldRangeAux structName fieldName errorTag rest (i + 1) (some f)
      | none => findFieldRangeAux structName fieldName errorTag rest (i + 1) none

/-- `parser.ts`: `findFieldRange`. -/
def findFieldRange (source structName fieldName : String) (errorTag : Option String) :
    FieldRange :=
  findFieldRangeAux structName fieldName errorTag
    ((splitOnChar '\n' source.data).map (fun cs => (⟨cs⟩ : String))) 0 none

/-- `server.ts`, `validateGoFile`: `settings.maxNumberOfProblems || 1000` -
the falsy cap 0 falls back to the default 1000. -/
def maxProblemsOf (maxNumberOfProblems : Nat) : Nat :=
  if maxNumberOfProblems = 0 then 1000 else maxNumberOfProblems

/-- `server.ts`, `validateGoFile`: `gormDiagnostics.slice(0, maxProblems)`. -/
def limitedDiagnostics (maxNumberOfProblems : Nat) (gormDiagnostics : List GormDiagnostic) :
    List GormDiagnostic :=
  gormDiagnostics.take (maxProblemsOf maxNumberOfProblems)

/-- The column entry of one tag part, when the part's key is the column key
and its value is non-empty: `(display key, value)`. -/
def partColEntry (p : String) : Option (String × String) :=
  let kv := splitPart p
  if lowerS kv.1 = "column" ∧ kv.2 ≠ "" then some (kv.1, kv.2) else none

/-- All column entries of a field, as the entry loop sees them ([] when the
field is skipped for an empty tag literal). -/
def columnEntries (f : GormTag) : List (String × String) :=
  if skipField f then [] else (tagParts f.gormTag).filterMap partColEntry

/-- Whether one tag part carries the primary-key key. -/
def partIsPK (p : String) : Bool := lowerS (splitPart p).1 = "primarykey"

/-- How many entries of a field carry the primary-key key (0 when skipped). -/
def pkCount (f : GormTag) : Nat :=
  if skipField f then 0 else ((tagParts f.gormTag).filter partIsPK).length

/-- Recognizes a duplicate-column diagnostic by its fixed message prefix
(no other message of the engine starts with these words). -/
def dupColumnDiag (d : GormDiagnostic) : Bool :=
  isPrefixL "Duplicate column name".data d.message.data

/-- Recognizes a multiple-primary-key diagnostic: only the struct-wide pass
emits diagnostics without an offending key, and among those only the
primary-key multiplicity check uses this message. -/
def pkMultDiag (d : GormDiagnostic) : Bool :=
  d.errorTag.isNone && d.message == pkMsg

/-- The message of a duplicate-column error for value `v` owned by field `o`. -/
def dupColMsg (v o : String) : String :=
  "Duplicate column name '" ++ v ++ "' already used by field '" ++ o ++
  "'. Each column name must be unique within the struct."

/-- The effect of one entry on the `columnValues` map (the column section of
the entry loop in isolation). -/
def colUpdate (m : List (String × String)) (fname : String) (part : String) :
    List (String × String) :=
  let kv := splitPart part
  if lowerS kv.1 = "column" ∧ kv.2 ≠ "" then
    match lookupCol m kv.2 with
    | some _ => m
    | none => m ++ [(kv.2, fname)]
  else m

/-- The duplicate-column diagnostics one entry emits given the current map. -/
def colEmit (sn : String) (f : GormTag) (m : List (String × String)) (part : String) :
    List GormDiagnostic :=
  let kv := splitPart part
  if lowerS kv.1 = "column" ∧ kv.2 ≠ "" then
    match lookupCol m kv.2 with
    | some o => [⟨sn, f.name, f.gormTag, dupColMsg kv.2 o, .error, some kv.1⟩]
    | none => []
  else []

/-- The column bookkeeping of a whole entry list: the duplicate-column
diagnostics emitted in order, and the final map. -/
def colRun (sn : String) (f : GormTag) :
    List (String × String) → List String → List GormDiagnostic × List (String × String)
  | m, [] => ([], m)
  | m, p :: rest =>
    let r := colRun sn f (colUpdate m f.name p) rest
    (colEmit sn f m p ++ r.1, r.2)

/-! ## Support lemmas -/

lemma validateTagValue_errorTag_isSome (k v sn fn tg ok : String) :
    ∀ d ∈ validateTagValue k v sn fn tg ok, d.errorTag.isSome := by
  intro d hd
  unfold validateTagValue at hd
  repeat' split at hd
  all_goals
    try simp only [List.mem_append, List.mem_ite_nil_right, List.mem_singleton,
      List.mem_flatMap, List.not_mem_nil, List.mem_cons, or_false] at hd
  all_goals try casesm* _ ∨ _, _ ∧ _, Exists _
  all_goals try contradiction
  all_goals subst_vars
  all_goals rfl

lemma validateTagCombinations_errorTag_isSome (keys : List String) (ck sn fn tg ok : String) :
    ∀ d ∈ validateTagCombinations keys ck sn fn tg ok, d.errorTag.isSome := by
  intro d hd
  unfold validateTagCombinations at hd
  simp only [List.mem_append, List.mem_ite_nil_right, List.mem_singleton,
    List.mem_flatMap, List.not_mem_nil, List.mem_cons, or_false] at hd
  casesm* _ ∨ _, _ ∧ _, Exists _ <;> subst_vars <;> rfl

lemma processPart_errorTag_isSome (sn : String) (f : GormTag) (keys : List String)
    (st : StructState) (part : String) :
    ∀ d ∈ (processPart sn f keys st part).2, d.errorTag.isSome := by
  intro d hd
  unfold processPart at hd
  simp only [List.mem_append] at hd
  rcases hd with (((((hd | hd) | hd) | hd) | hd) | hd) | hd
  · split at hd <;> simp_all
  · split at hd <;> simp_all
  · split at hd <;> simp_all
  · split at hd
    · split at hd <;> simp_all
    · simp_all
  · repeat' split at hd
    all_goals simp_all
  · exact validateTagValue_errorTag_isSome _ _ _ _ _ _ d hd
  · exact validateTagCombinations_errorTag_isSome _ _ _ _ _ _ d hd

lemma runParts_errorTag_isSome (sn : String) (f : GormTag) :
    ∀ (parts : List String) (keys : List String) (st : StructState),
      ∀ d ∈ (runParts sn f keys st parts).2, d.errorTag.isSome := by
  intro parts
  induction parts with
  | nil => intro keys st d hd; simp [runParts] at hd
  | cons p rest ih =>
    intro keys st d hd
    simp only [runParts, List.mem_append] at hd
    rcases hd with hd | hd
    · exact processPart_errorTag_isSome _ _ _ _ _ d hd
    · exact ih _ _ d hd

lemma runFields_errorTag_isSome (sn : String) :
    ∀ (fields : List GormTag) (st : StructState) (b : Bool),
      ∀ d ∈ (runFields sn st b fields).2, d.errorTag.isSome := by
  intro fields
  induction fields with
  | nil => intro st b d hd; simp [runFields] at hd
  | cons f rest ih =>
    intro st b d hd
    simp only [runFields] at hd
    split at hd
    · exact ih _ _ d hd
    · simp only [validateFieldLevelRules, List.append_nil, List.mem_append] at hd
      rcases hd with hd | hd
      · exact runParts_errorTag_isSome _ _ _ _ _ d hd
      · exact ih _ _ d hd

lemma filter_false_ite_singleton {p : GormDiagnostic → Bool} (c : Prop) [Decidable c]
    (d : GormDiagnostic) (h : p d = false) : (if c then [d] else []).filter p = [] := by
  split
  · simp [List.filter_cons, h]
  · rfl

lemma filter_false_ite_ite {p : GormDiagnostic → Bool} (c1 c2 : Prop) [Decidable c1]
    [Decidable c2] (d1 d2 : GormDiagnostic) (h1 : p d1 = false) (h2 : p d2 = false) :
    (if c1 then [d1] else if c2 then [d2] else []).filter p = [] := by
  split
  · simp [List.filter_cons, h1]
  · split
    · simp [List.filter_cons, h2]
    · rfl

lemma validateTagValue_dupcol (k v sn fn tg ok : String) :
    (validateTagValue k v sn fn tg ok).filter dupColumnDiag = [] := by
  rw [List.filter_eq_nil_iff]
  intro d hd
  unfold validateTagValue at hd
  repeat' split at hd
  all_goals
    try simp only [List.mem_append, List.mem_ite_nil_right, List.mem_singleton,
      List.mem_flatMap, List.not_mem_nil, List.mem_cons, or_false] at hd
  all_goals try casesm* _ ∨ _, _ ∧ _, Exists _
  all_goals try contradiction
  all_goals subst_vars
  all_goals exact fun h => Bool.noConfusion h

lemma validateTagCombinations_dupcol (keys : List String) (ck sn fn tg ok : String) :
    (validateTagCombinations keys ck sn fn tg ok).filter dupColumnDiag = [] := by
  rw [List.filter_eq_nil_iff]
  intro d hd
  unfold validateTagCombinations at hd
  simp only [List.mem_append, List.mem_ite_nil_right, List.mem_singleton,
    List.mem_flatMap, List.not_mem_nil, List.mem_cons, or_false] at hd
  casesm* _ ∨ _, _ ∧ _, Exists _ <;> subst_vars <;> exact fun h => Bool.noConfusion h

lemma processPart_colVals (sn : String) (f : GormTag) (keys : List String) (st : StructState)
    (part : String) :
    (processPart sn f keys st part).1.2.columnValues = colUpdate st.columnValues f.name part := by
  unfold processPart colUpdate
  dsimp only
  split
  · cases lookupCol st.columnValues (splitPart part).2 <;> rfl
  · rfl

lemma processPart_dupcol (sn : String) (f : GormTag) (keys : List String) (st : StructState)
    (part : String) :
    (processPart sn f keys st part).2.filter dupColumnDiag = colEmit sn f st.columnValues part := by
  unfold processPart colEmit
  dsimp only
  rw [List.filter_append, List.filter_append, List.filter_append, List.filter_append,
    List.filter_append, List.filter_append]
  rw [validateTagValue_dupcol, validateTagCombinations_dupcol]
  rw [filter_false_ite_singleton _ _ rfl, filter_false_ite_singleton _ _ rfl,
    filter_false_ite_singleton _ _ rfl, filter_false_ite_ite _ _ _ _ rfl rfl]
  simp only [List.append_nil, List.nil_append]
  split
  · cases lookupCol st.columnValues (splitPart part).2 <;> rfl
  · rfl

lemma runParts_col (sn : String) (f : GormTag) :
    ∀ (parts : List String) (keys : List String) (st : StructState),
      (runParts sn f keys st parts).2.filter dupColumnDiag =
        (colRun sn f st.columnValues parts).1 ∧
      (runParts sn f keys st parts).1.2.columnValues =
        (colRun sn f st.columnValues parts).2 := by
  intro parts
  induction parts with
  | nil => intro keys st; exact ⟨rfl, rfl⟩
  | cons p rest ih =>
    intro keys st
    simp only [runParts, colRun, List.filter_append]
    constructor
    · rw [processPart_dupcol, (ih _ _).1, processPart_colVals]
    · rw [(ih _ _).2, processPart_colVals]

lemma partColEntry_none_emit (sn : String) (f : GormTag) (m : List (String × String))
    (fname p : String) (h : partColEntry p = none) :
    colEmit sn f m p = [] ∧ colUpdate m fname p = m := by
  unfold partColEntry at h
  unfold colEmit colUpdate
  dsimp only at h ⊢
  split at h
  · exact absurd h (by simp)
  · constructor <;> rw [if_neg (by assumption)]

lemma partColEntry_some_emit (sn : String) (f : GormTag) (m : List (String × String))
    (fname p k v : String) (h : partColEntry p = some (k, v)) :
    colEmit sn f m p =
      (match lookupCol m v with
       | some o => [⟨sn, f.name, f.gormTag, dupColMsg v o, .error, some k⟩]
       | none => []) ∧
    colUpdate m fname p =
      (match lookupCol m v with
       | some _ => m
       | none => m ++ [(v, fname)]) := by
  unfold partColEntry at h
  unfold colEmit colUpdate
  dsimp only at h ⊢
  split at h
  · simp only [Option.some.injEq, Prod.mk.injEq] at h
    obtain ⟨hk, hv⟩ := h
    subst hk; subst hv
    rw [if_pos (by assumption), if_pos (by assumption)]
    exact ⟨rfl, rfl⟩
  · exact absurd h (by simp)

lemma colRun_nil_entries (sn : String) (f : GormTag) :
    ∀ (parts : List String) (m : List (String × String)),
      parts.filterMap partColEntry = [] → colRun sn f m parts = ([], m) := by
  intro parts
  induction parts with
  | nil => intro m _; rfl
  | cons p rest ih =>
    intro m h
    rw [List.filterMap_cons] at h
    cases hp : partColEntry p with
    | some kv => rw [hp] at h; exact absurd h (by simp)
    | none =>
      rw [hp] at h
      obtain ⟨he, hu⟩ := partColEntry_none_emit sn f m f.name p hp
      simp only [colRun, hu, ih _ h, he, List.nil_append]

lemma colRun_one_entry (sn : String) (f : GormTag) :
    ∀ (parts : List String) (m : List (String × String)) (k v : String),
      parts.filterMap partColEntry = [(k, v)] →
      colRun sn f m parts =
        (match lookupCol m v with
         | some o => [⟨sn, f.name, f.gormTag, dupColMsg v o, .error, some k⟩]
         | none => [],
         match lookupCol m v with
         | some _ => m
         | none => m ++ [(v, f.name)]) := by
  intro parts
  induction parts with
  | nil => intro m k v h; exact absurd h (by simp)
  | cons p rest ih =>
    intro m k v h
    rw [List.filterMap_cons] at h
    cases hp : partColEntry p with
    | none =>
      rw [hp] at h
      obtain ⟨he, hu⟩ := partColEntry_none_emit sn f m f.name p hp
      simp only [colRun, hu, ih _ _ _ h, he, List.nil_append]
    | some kv =>
      rw [hp] at h
      simp only [List.cons.injEq] at h
      obtain ⟨hkv, hrest⟩ := h
      subst hkv
      obtain ⟨he, hu⟩ := partColEntry_some_emit sn f m f.name p k v hp
      simp only [colRun, hu, he, colRun_nil_entries sn f rest _ hrest, List.append_nil]

lemma lookupCol_append_self (v n : String) :
    ∀ m : List (String × String), lookupCol m v = none →
      lookupCol (m ++ [(v, n)]) v = some n := by
  intro m
  induction m with
  | nil => intro _; simp [lookupCol, List.find?]
  | cons e rest ih =>
    intro h
    simp only [lookupCol] at h ⊢
    cases he : (e.1 == v) with
    | true =>
      rw [List.find?_cons_of_pos (p := fun x => x.1 == v) rest he] at h
      simp at h
    | false =>
      rw [List.find?_cons_of_neg (p := fun x => x.1 == v) rest (by simp [he])] at h
      rw [List.cons_append,
        List.find?_cons_of_neg (p := fun x => x.1 == v) (rest ++ [(v, n)]) (by simp [he])]
      exact ih h

lemma columnEntries_not_skip {f : GormTag} (h : columnEntries f ≠ []) : skipField f = false := by
  unfold columnEntries at h
  by_contra hb
  simp only [Bool.not_eq_false] at hb
  rw [if_pos hb] at h
  exact h rfl

lemma columnEntries_eq_of_not_skip {f : GormTag} (h : skipField f = false) :
    columnEntries f = (tagParts f.gormTag).filterMap partColEntry := by
  unfold columnEntries
  rw [if_neg (by simp [h])]

lemma runFields_hasTags (sn : String) :
    ∀ (fields : List GormTag) (st : StructState) (b : Bool),
      (runFields sn st b fields).1.2 = (b || fields.any (fun f => !skipField f)) := by
  intro fields
  induction fields with
  | nil => intro st b; simp [runFields]
  | cons f rest ih =>
    intro st b
    simp only [runFields]
    split
    · rename_i hskip
      rw [ih, List.any_cons, hskip]
      simp
    · rename_i hskip
      simp only [Bool.not_eq_true] at hskip
      rw [ih, List.any_cons, hskip]
      simp

lemma runFields_dupcol_nil (sn : String) :
    ∀ (fields : List GormTag) (st : StructState) (b : Bool),
      (∀ f ∈ fields, columnEntries f = []) →
      (runFields sn st b fields).2.filter dupColumnDiag = [] ∧
      (runFields sn st b fields).1.1.columnValues = st.columnValues := by
  intro fields
  induction fields with
  | nil => intro st b _; exact ⟨rfl, rfl⟩
  | cons f rest ih =>
    intro st b h
    simp only [runFields]
    split
    · exact ih _ _ (fun g hg => h g (List.mem_cons_of_mem f hg))
    · rename_i hskip
      simp only [Bool.not_eq_true] at hskip
      have hce : (tagParts f.gormTag).filterMap partColEntry = [] := by
        rw [← columnEntries_eq_of_not_skip hskip]
        exact h f (List.mem_cons_self _ _)
      have hcr := colRun_nil_entries sn f (tagParts f.gormTag) st.columnValues hce
      have hcol := runParts_col sn f (tagParts f.gormTag) [] st
      rw [hcr] at hcol
      simp only [validateFieldLevelRules, List.append_nil, List.filter_append]
      rw [hcol.1]
      have ihr := ih (runParts sn f [] st (tagParts f.gormTag)).1.2 true
        (fun g hg => h g (List.mem_cons_of_mem f hg))
      rw [hcol.2] at ihr
      exact ⟨by rw [ihr.1]; rfl, ihr.2⟩

lemma runFields_dupcol_hit (sn : String) (k2 v o : String) (f2 : GormTag)
    (h2 : columnEntries f2 = [(k2, v)]) :
    ∀ (mid post : List GormTag) (st : StructState) (b : Bool),
      (∀ f ∈ mid, columnEntries f = []) →
      (∀ f ∈ post, columnEntries f = []) →
      lookupCol st.columnValues v = some o →
      (runFields sn st b (mid ++ f2 :: post)).2.filter dupColumnDiag =
        [⟨sn, f2.name, f2.gormTag, dupColMsg v o, .error, some k2⟩] := by
  intro mid
  induction mid with
  | nil =>
    intro post st b _ hpost hlook
    simp only [List.nil_append, runFields]
    have hskip : skipField f2 = false := columnEntries_not_skip (by rw [h2]; simp)
    rw [if_neg (by simp [hskip])]
    have hce : (tagParts f2.gormTag).filterMap partColEntry = [(k2, v)] := by
      rw [← columnEntries_eq_of_not_skip hskip]; exact h2
    have hcr := colRun_one_entry sn f2 (tagParts f2.gormTag) st.columnValues k2 v hce
    rw [hlook] at hcr
    have hcol := runParts_col sn f2 (tagParts f2.gormTag) [] st
    rw [hcr] at hcol
    simp only [validateFieldLevelRules, List.append_nil, List.filter_append]
    rw [hcol.1]
    have hrest := runFields_dupcol_nil sn post (runParts sn f2 [] st (tagParts f2.gormTag)).1.2
      true hpost
    simpa using hrest.1
  | cons m rest ih =>
    intro post st b hmid hpost hlook
    simp only [List.cons_append, runFields]
    split
    · exact ih post _ _ (fun g hg => hmid g (List.mem_cons_of_mem m hg)) hpost hlook
    · rename_i hskip
      simp only [Bool.not_eq_true] at hskip
      have hce : (tagParts m.gormTag).filterMap partColEntry = [] := by
        rw [← columnEntries_eq_of_not_skip hskip]
        exact hmid m (List.mem_cons_self _ _)
      have hcr := colRun_nil_entries sn m (tagParts m.gormTag) st.columnValues hce
      have hcol := runParts_col sn m (tagParts m.gormTag) [] st
      rw [hcr] at hcol
      simp only [validateFieldLevelRules, List.append_nil, List.filter_append]
      rw [hcol.1]
      have ihr := ih post (runParts sn m [] st (tagParts m.gormTag)).1.2 true
        (fun g hg => hmid g (List.mem_cons_of_mem m hg)) hpost (by rw [hcol.2]; exact hlook)
      simpa using ihr

lemma runFields_dupcol_main (sn : String) (k1 k2 v : String) (f1 f2 : GormTag)
    (h1 : columnEntries f1 = [(k1, v)]) (h2 : columnEntries f2 = [(k2, v)]) :
    ∀ (pre mid post : List GormTag) (st : StructState) (b : Bool),
      (∀ f ∈ pre, columnEntries f = []) →
      (∀ f ∈ mid, columnEntries f = []) →
      (∀ f ∈ post, columnEntries f = []) →
      lookupCol st.columnValues v = none →
      (runFields sn st b (pre ++ f1 :: (mid ++ f2 :: post))).2.filter dupColumnDiag =
        [⟨sn, f2.name, f2.gormTag, dupColMsg v f1.name, .error, some k2⟩] := by
  intro pre
  induction pre with
  | nil =>
    intro mid post st b _ hmid hpost hlook
    simp only [List.nil_append, runFields]
    have hskip : skipField f1 = false := columnEntries_not_skip (by rw [h1]; simp)
    rw [if_neg (by simp [hskip])]
    have hce : (tagParts f1.gormTag).filterMap partColEntry = [(k1, v)] := by
      rw [← columnEntries_eq_of_not_skip hskip]; exact h1
    have hcr := colRun_one_entry sn f1 (tagParts f1.gormTag) st.columnValues k1 v hce
    rw [hlook] at hcr
    have hcol := runParts_col sn f1 (tagParts f1.gormTag) [] st
    rw [hcr] at hcol
    simp only [validateFieldLevelRules, List.append_nil, List.filter_append]
    rw [hcol.1]
    have hlook2 : lookupCol (runParts sn f1 [] st (tagParts f1.gormTag)).1.2.columnValues v =
        some f1.name := by
      rw [hcol.2]
      exact lookupCol_append_self v f1.name st.columnValues hlook
    simpa using runFields_dupcol_hit sn k2 v f1.name f2 h2 mid post _ true hmid hpost hlook2
  | cons p rest ih =>
    intro mid post st b hpre hmid hpost hlook
    simp only [List.cons_append, runFields]
    split
    · exact ih mid post _ _ (fun g hg => hpre g (List.mem_cons_of_mem p hg)) hmid hpost hlook
    · rename_i hskip
      simp only [Bool.not_eq_true] at hskip
      have hce : (tagParts p.gormTag).filterMap partColEntry = [] := by
        rw [← columnEntries_eq_of_not_skip hskip]
        exact hpre p (List.mem_cons_self _ _)
      have hcr := colRun_nil_entries sn p (tagParts p.gormTag) st.columnValues hce
      have hcol := runParts_col sn p (tagParts p.gormTag) [] st
      rw [hcr] at hcol
      simp only [validateFieldLevelRules, List.append_nil, List.filter_append]
      rw [hcol.1]
      have ihr := ih mid post (runParts sn p [] st (tagParts p.gormTag)).1.2 true
        (fun g hg => hpre g (List.mem_cons_of_mem p hg)) hmid hpost
        (by rw [hcol.2]; exact hlook)
      simpa using ihr

lemma structWide_dupcol (sn : String) (fields : List GormTag) (st : StructState) :
    (structWideDiags sn fields st).filter dupColumnDiag = [] := by
  rw [List.filter_eq_nil_iff]
  intro d hd
  unfold structWideDiags at hd
  simp only [List.mem_append, List.mem_ite_nil_right, List.mem_flatMap] at hd
  rcases hd with ⟨-, fn, -, hd⟩ | ⟨e, -, hd⟩
  · rcases hf : fields.find? (fun f => f.name == fn) with - | f <;> rw [hf] at hd
    · simp at hd
    · simp only [List.mem_singleton] at hd
      subst hd
      exact fun h => Bool.noConfusion h
  · obtain ⟨-, fn, -, hd⟩ := hd
    rcases hf : fields.find? (fun f => f.name == fn) with - | f <;> rw [hf] at hd
    · simp at hd
    · simp only [List.mem_singleton] at hd
      subst hd
      exact fun h => Bool.noConfusion h

lemma pkMultDiag_false_of_isSome {d : GormDiagnostic} (h : d.errorTag.isSome) :
    pkMultDiag d = false := by
  unfold pkMultDiag
  cases hd : d.errorTag with
  | none => rw [hd] at h; simp at h
  | some t => rfl

lemma filter_pkMult_fieldpass (sn : String) (fields : List GormTag) (st : StructState)
    (b : Bool) : (runFields sn st b fields).2.filter pkMultDiag = [] := by
  rw [List.filter_eq_nil_iff]
  intro d hd
  have := pkMultDiag_false_of_isSome (runFields_errorTag_isSome sn fields st b d hd)
  simp [this]

lemma processPart_pk (sn : String) (f : GormTag) (keys : List String) (st : StructState)
    (part : String) :
    (processPart sn f keys st part).1.2.primaryKeyFields =
      if lowerS (splitPart part).1 = "primarykey" then st.primaryKeyFields ++ [f.name]
      else st.primaryKeyFields := rfl

lemma runParts_pk (sn : String) (f : GormTag) :
    ∀ (parts : List String) (keys : List String) (st : StructState),
      (runParts sn f keys st parts).1.2.primaryKeyFields =
        st.primaryKeyFields ++ List.replicate ((parts.filter partIsPK).length) f.name := by
  intro parts
  induction parts with
  | nil => intro keys st; simp [runParts]
  | cons p rest ih =>
    intro keys st
    simp only [runParts]
    rw [ih]
    rw [processPart_pk]
    by_cases hp : lowerS (splitPart p).1 = "primarykey"
    · rw [if_pos hp]
      have hb : partIsPK p = true := by simp [partIsPK, hp]
      rw [List.filter_cons_of_pos hb]
      simp [List.replicate_succ, List.append_assoc]
    · rw [if_neg hp]
      have hb : ¬partIsPK p = true := by simp [partIsPK, hp]
      rw [List.filter_cons_of_neg hb]

lemma pkCount_zero_of_skip {f : GormTag} (h : skipField f = true) : pkCount f = 0 := by
  simp [pkCount, h]

lemma pkCount_of_not_skip {f : GormTag} (h : skipField f = false) :
    pkCount f = ((tagParts f.gormTag).filter partIsPK).length := by
  simp [pkCount, h]

lemma runFields_pk (sn : String) :
    ∀ (fields : List GormTag) (st : StructState) (b : Bool),
      (runFields sn st b fields).1.1.primaryKeyFields =
        st.primaryKeyFields ++
          fields.flatMap (fun f => List.replicate (pkCount f) f.name) := by
  intro fields
  induction fields with
  | nil => intro st b; simp [runFields]
  | cons f rest ih =>
    intro st b
    simp only [runFields]
    split
    · rename_i hskip
      rw [ih, List.flatMap_cons, pkCount_zero_of_skip hskip]
      simp
    · rename_i hskip
      simp only [Bool.not_eq_true] at hskip
      rw [ih, runParts_pk, List.flatMap_cons, pkCount_of_not_skip hskip]
      simp [List.append_assoc]

lemma flatMap_replicate_names (fields : List GormTag) (h : ∀ f ∈ fields, pkCount f ≤ 1) :
    fields.flatMap (fun f => List.replicate (pkCount f) f.name) =
      (fields.filter (fun f => pkCount f != 0)).map (fun f => f.name) := by
  induction fields with
  | nil => rfl
  | cons f rest ih =>
    rw [List.flatMap_cons]
    have hf := h f (List.mem_cons_self _ _)
    rcases Nat.le_one_iff_eq_zero_or_eq_one.1 hf with h0 | h1
    · rw [List.filter_cons_of_neg (by simp [h0])]
      rw [h0, List.replicate_zero, List.nil_append]
      exact ih (fun g hg => h g (List.mem_cons_of_mem f hg))
    · rw [List.filter_cons_of_pos (by simp [h1])]
      rw [h1, List.map_cons]
      rw [ih (fun g hg => h g (List.mem_cons_of_mem f hg))]
      rfl

lemma find?_name_self :
    ∀ (fields : List GormTag) (f : GormTag), f ∈ fields →
      (fields.map (fun g => g.name)).Nodup →
      fields.find? (fun g => g.name == f.name) = some f := by
  intro fields
  induction fields with
  | nil => intro f hf; simp at hf
  | cons g rest ih =>
    intro f hf hnd
    simp only [List.map_cons, List.nodup_cons] at hnd
    rcases List.mem_cons.1 hf with rfl | hf'
    · exact List.find?_cons_of_pos (p := fun x => x.name == f.name) rest
        (show (f.name == f.name) = true by simp)
    · have hne : ¬(g.name == f.name) = true := by
        simp only [beq_iff_eq]
        intro he
        exact hnd.1 (he ▸ List.mem_map_of_mem (fun x => x.name) hf')
      rw [List.find?_cons_of_neg (p := fun x => x.name == f.name) rest hne]
      exact ih f hf' hnd.2

lemma flatMap_find_names (sn : String) (fields : List GormTag)
    (hnd : (fields.map (fun g => g.name)).Nodup) :
    ∀ pkFields : List GormTag, (∀ f ∈ pkFields, f ∈ fields) →
      ((pkFields.map (fun f => f.name)).flatMap (fun fieldName =>
        match fields.find? (fun f => f.name == fieldName) with
        | some f => [(⟨sn, f.name, f.gormTag, pkMsg, .error, none⟩ : GormDiagnostic)]
        | none => [])) =
      pkFields.map (fun f => ⟨sn, f.name, f.gormTag, pkMsg, .error, none⟩) := by
  intro pkFields
  induction pkFields with
  | nil => intro _; rfl
  | cons f rest ih =>
    intro hsub
    simp only [List.map_cons, List.flatMap_cons]
    rw [find?_name_self fields f (hsub f (List.mem_cons_self _ _)) hnd]
    rw [ih (fun g hg => hsub g (List.mem_cons_of_mem f hg))]
    rfl

lemma filter_pkMult_map (sn : String) (pkFields : List GormTag) :
    (pkFields.map (fun f =>
      (⟨sn, f.name, f.gormTag, pkMsg, .error, none⟩ : GormDiagnostic))).filter pkMultDiag =
      pkFields.map (fun f => ⟨sn, f.name, f.gormTag, pkMsg, .error, none⟩) := by
  induction pkFields with
  | nil => rfl
  | cons f rest ih =>
    simp only [List.map_cons]
    rw [List.filter_cons_of_pos (by rfl)]
    rw [ih]

lemma structWide_pkMult (sn : String) (fields : List GormTag) (st : StructState)
    (pkFields : List GormTag)
    (hnames : st.primaryKeyFields = pkFields.map (fun f => f.name))
    (hsub : ∀ f ∈ pkFields, f ∈ fields)
    (hnd : (fields.map (fun g => g.name)).Nodup) :
    (structWideDiags sn fields st).filter pkMultDiag =
      if 1 < pkFields.length then
        pkFields.map (fun f => ⟨sn, f.name, f.gormTag, pkMsg, .error, none⟩)
      else [] := by
  unfold structWideDiags
  rw [List.filter_append]
  have hidx : (st.indexNames.flatMap (fun entry =>
      if 1 < entry.2.length then
        entry.2.flatMap (fun fieldName =>
          match fields.find? (fun f => f.name == fieldName) with
          | some f =>
            [⟨sn, f.name, f.gormTag,
              "Index '" ++ entry.1 ++ "' is used by multiple fields: " ++
              joinComma entry.2 ++ ". Ensure this is intended for composite index.",
              .warning, none⟩]
          | none => [])
      else [])).filter pkMultDiag = [] := by
    rw [List.filter_eq_nil_iff]
    intro d hd
    simp only [List.mem_flatMap, List.mem_ite_nil_right] at hd
    obtain ⟨e, -, -, fn, -, hd⟩ := hd
    rcases hf : fields.find? (fun f => f.name == fn) with - | f <;> rw [hf] at hd
    · simp at hd
    · simp only [List.mem_singleton] at hd
      subst hd
      exact fun h => Bool.noConfusion h
  rw [hidx, List.append_nil]
  rw [hnames, List.length_map]
  split
  · rw [flatMap_find_names sn fields hnd pkFields hsub, filter_pkMult_map]
  · rfl

lemma validateGormTags_singleton (s : GoStruct) :
    validateGormTags [s] = validateStructDiags s := by
  simp [validateGormTags]

lemma findFieldRangeAux_no_struct (structName fieldName : String) (errorTag : Option String) :
    ∀ (lines : List String) (i : Nat),
      (∀ l ∈ lines, containsSub ("type " ++ structName ++ " struct").data l.data = false) →
      findFieldRangeAux structName fieldName errorTag lines i none = ⟨⟨0, 0⟩, ⟨0, 1⟩⟩ := by
  intro lines
  induction lines with
  | nil => intro i _; rfl
  | cons l rest ih =>
    intro i h
    unfold findFieldRangeAux
    rw [if_neg (fun hc => by
      rw [h l (List.mem_cons_self _ _)] at hc
      exact Bool.noConfusion hc)]
    exact ih (i + 1) (fun x hx => h x (List.mem_cons_of_mem l hx))

/-! ## Claim theorems -/

/-- C1 (counterexample): for `type User struct` with the single field `ID`
tagged `primaryKey;unique`, validation emits exactly ONE diagnostic - the
conflict error raised while processing `unique` - not two errors, one per
conflict direction, as claimed: the `primaryKey`-side check ran while
`unique` was not yet in the keys-seen set. -/
theorem C1_counterexample :
    validateGormTags [⟨"User", [⟨"ID", "uint", "primaryKey;unique"⟩]⟩] =
      [⟨"User", "ID", "primaryKey;unique",
        "'unique' and 'primaryKey' cannot be used together", .error, some "unique"⟩] ∧
    (validateGormTags [⟨"User", [⟨"ID", "uint", "primaryKey;unique"⟩]⟩]).length ≠ 2 := by
  have h : validateGormTags [⟨"User", [⟨"ID", "uint", "primaryKey;unique"⟩]⟩] =
      [⟨"User", "ID", "primaryKey;unique",
        "'unique' and 'primaryKey' cannot be used together", .error, some "unique"⟩] := by
    decide
  exact ⟨h, by rw [h]; decide⟩

/-- C1 (amended): for the struct `type User struct` whose single field `ID`
carries `primaryKey;unique`, validation emits exactly one error for the
conflict, attributed to `ID`, raised at the later of the two keys; with the
reverse order `unique;primaryKey` it likewise emits exactly one conflict
error (plus the separate implied-uniqueness warning of the combination
check). In both orders the conflict produces an error, but once, not twice. -/
theorem C1_conflict_single_error :
    validateGormTags [⟨"User", [⟨"ID", "uint", "primaryKey;unique"⟩]⟩] =
      [⟨"User", "ID", "primaryKey;unique",
        "'unique' and 'primaryKey' cannot be used together", .error, some "unique"⟩] ∧
    validateGormTags [⟨"User", [⟨"ID", "uint", "unique;primaryKey"⟩]⟩] =
      [⟨"User", "ID", "unique;primaryKey",
        "'primaryKey' and 'unique' cannot be used together", .error, some "primaryKey"⟩,
       ⟨"User", "ID", "unique;primaryKey",
        "'primaryKey' automatically implies uniqueness. Remove 'unique' tag.",
        .warning, some "primaryKey"⟩] := by
  constructor <;> decide

/-- C2: in a struct where exactly two fields carry a column-rename entry
(both with the same value `v`, every other field carrying none), exactly one
duplicate-column diagnostic is emitted: an error attributed to the later
field in declaration order whose message names the earlier field as the
existing owner; the earlier field receives none. -/
theorem C2_column_reuse (sn v k1 k2 : String) (f1 f2 : GormTag) (pre mid post : List GormTag)
    (h1 : columnEntries f1 = [(k1, v)]) (h2 : columnEntries f2 = [(k2, v)])
    (hrest : ∀ f ∈ (pre ++ mid ++ post), columnEntries f = []) :
    (validateGormTags [⟨sn, pre ++ f1 :: (mid ++ f2 :: post)⟩]).filter dupColumnDiag =
      [⟨sn, f2.name, f2.gormTag, dupColMsg v f1.name, .error, some k2⟩] := by
  rw [validateGormTags_singleton]
  unfold validateStructDiags
  dsimp only
  rw [if_neg (by cases pre <;> simp)]
  have hskip1 : skipField f1 = false := columnEntries_not_skip (by rw [h1]; simp)
  have htag : (runFields sn ⟨[], [], []⟩ false (pre ++ f1 :: (mid ++ f2 :: post))).1.2 = true := by
    rw [runFields_hasTags]
    simp only [Bool.false_or, List.any_eq_true]
    exact ⟨f1, by simp, by simp [hskip1]⟩
  rw [if_neg (by simp [htag])]
  rw [List.filter_append]
  have hpre : ∀ f ∈ pre, columnEntries f = [] := fun f hf => hrest f (by simp [hf])
  have hmid : ∀ f ∈ mid, columnEntries f = [] := fun f hf => hrest f (by simp [hf])
  have hpost : ∀ f ∈ post, columnEntries f = [] := fun f hf => hrest f (by simp [hf])
  rw [runFields_dupcol_main sn k1 k2 v f1 f2 h1 h2 pre mid post ⟨[], [], []⟩ false
    hpre hmid hpost rfl]
  rw [structWide_dupcol]
  rfl

/-- C2 (witness): `type User struct` with fields `A` and `B` both renaming to
column `user_name` - one error, on `B`, naming `A`. -/
theorem C2_column_reuse_witness :
    columnEntries ⟨"A", "string", "column:user_name"⟩ = [("column", "user_name")] ∧
    columnEntries ⟨"B", "string", "column:user_name"⟩ = [("column", "user_name")] ∧
    (validateGormTags [⟨"User", [⟨"A", "string", "column:user_name"⟩,
        ⟨"B", "string", "column:user_name"⟩]⟩]).filter dupColumnDiag =
      [⟨"User", "B", "column:user_name", dupColMsg "user_name" "A", .error, some "column"⟩] :=
  ⟨by decide, by decide,
    C2_column_reuse "User" "user_name" "column" "column"
      ⟨"A", "string", "column:user_name"⟩ ⟨"B", "string", "column:user_name"⟩ [] [] []
      (by decide) (by decide) (by simp)⟩

/-- C3: in a struct whose fields each carry the primary-key key at most once
and have pairwise distinct names, the struct-wide pass emits exactly one
multiple-primary-key error per primary-key field whenever more than one
field carries the key (in declaration order, every such field included), and
none when at most one field carries it. -/
theorem C3_pk_multiplicity (sn : String) (fields : List GormTag)
    (hpk : ∀ f ∈ fields, pkCount f ≤ 1)
    (hnd : (fields.map (fun g => g.name)).Nodup) :
    (validateGormTags [⟨sn, fields⟩]).filter pkMultDiag =
      (if 1 < (fields.filter (fun f => pkCount f != 0)).length then
        (fields.filter (fun f => pkCount f != 0)).map
          (fun f => ⟨sn, f.name, f.gormTag, pkMsg, .error, none⟩)
      else []) := by
  rw [validateGormTags_singleton]
  unfold validateStructDiags
  dsimp only
  rcases fields with - | ⟨f0, rest⟩
  · rfl
  · rw [if_neg (by simp)]
    cases htag : (runFields sn ⟨[], [], []⟩ false (f0 :: rest)).1.2 with
    | false =>
      rw [if_pos rfl]
      rw [filter_pkMult_fieldpass]
      have hany := runFields_hasTags sn (f0 :: rest) ⟨[], [], []⟩ false
      rw [htag] at hany
      simp only [Bool.false_or] at hany
      have hall : ∀ f ∈ (f0 :: rest), skipField f = true := by
        intro f hf
        by_contra hc
        have : (f0 :: rest).any (fun f => !skipField f) = true :=
          List.any_eq_true.2 ⟨f, hf, by simp [Bool.not_eq_true] at hc; simp [hc]⟩
        rw [this] at hany
        exact Bool.noConfusion hany
      have hfilter : (f0 :: rest).filter (fun f => pkCount f != 0) = [] := by
        rw [List.filter_eq_nil_iff]
        intro f hf
        simp [pkCount_zero_of_skip (hall f hf)]
      rw [hfilter]
      rfl
    | true =>
      rw [if_neg (by simp)]
      rw [List.filter_append, filter_pkMult_fieldpass, List.nil_append]
      exact structWide_pkMult sn (f0 :: rest) _ ((f0 :: rest).filter (fun f => pkCount f != 0))
        (by
          rw [runFields_pk]
          simp only [List.nil_append]
          exact flatMap_replicate_names _ hpk)
        (fun f hf => List.mem_of_mem_filter hf) hnd

/-- C3 (witness): three primary-key fields `A`, `B`, `C` - exactly three
multiplicity errors, one per field, in order. -/
theorem C3_pk_multiplicity_witness :
    (∀ f ∈ [(⟨"A", "uint", "primaryKey"⟩ : GormTag), ⟨"B", "uint", "primaryKey"⟩,
        ⟨"C", "uint", "primaryKey"⟩], pkCount f ≤ 1) ∧
    (validateGormTags [⟨"User", [⟨"A", "uint", "primaryKey"⟩, ⟨"B", "uint", "primaryKey"⟩,
        ⟨"C", "uint", "primaryKey"⟩]⟩]).filter pkMultDiag =
      [⟨"User", "A", "primaryKey", pkMsg, .error, none⟩,
       ⟨"User", "B", "primaryKey", pkMsg, .error, none⟩,
       ⟨"User", "C", "primaryKey", pkMsg, .error, none⟩] :=
  ⟨by decide,
    (C3_pk_multiplicity "User"
      [⟨"A", "uint", "primaryKey"⟩, ⟨"B", "uint", "primaryKey"⟩, ⟨"C", "uint", "primaryKey"⟩]
      (by decide) (by decide)).trans (by decide)⟩

/-- C4 (counterexample): a field carrying BOTH `foreignKey` and `references`
- in that order - still receives the pairing warning, contrary to the claim
that the presence of both suppresses it regardless of order: the combination
check runs per entry, and at the `foreignKey` entry `references` has not
been seen yet. -/
theorem C4_counterexample :
    (validateGormTags [⟨"User", [⟨"Owner", "User", "foreignKey:OwnerID;references:ID"⟩]⟩]).filter
      (fun d => d.message ==
        "'foreignKey' should be used together with 'references' for proper relationship definition.") =
      [⟨"User", "Owner", "foreignKey:OwnerID;references:ID",
        "'foreignKey' should be used together with 'references' for proper relationship definition.",
        .warning, some "foreignKey"⟩] := by
  decide

/-- C7 (counterexample): when neither the struct nor the field occurs in the
text, `findFieldRange` returns the range (0,0)-(0,1), which is one character
wide, not the claimed zero-width range with start = end. -/
theorem C7_counterexample :
    findFieldRange "package main" "User" "ID" none = ⟨⟨0, 0⟩, ⟨0, 1⟩⟩ ∧
    (findFieldRange "package main" "User" "ID" none).start ≠
      (findFieldRange "package main" "User" "ID" none).stop := by
  constructor <;> decide

/-- C7 (amended): when no line of the document contains the struct
declaration text (so neither the struct nor - a fortiori - the field is
found), `findFieldRange` returns, without failing, the range at document
start from character 0 to character 1 (width one, not zero-width). -/
theorem C7_fallback_range (source structName fieldName : String) (errorTag : Option String)
    (h : ∀ l ∈ (splitOnChar '\n' source.data).map (fun cs => (⟨cs⟩ : String)),
      containsSub ("type " ++ structName ++ " struct").data l.data = false) :
    findFieldRange source structName fieldName errorTag = ⟨⟨0, 0⟩, ⟨0, 1⟩⟩ := by
  unfold findFieldRange
  exact findFieldRangeAux_no_struct structName fieldName errorTag _ 0 h

/-- C7 (witness): a document with no struct declaration resolves to the
document-start range. -/
theorem C7_fallback_range_witness :
    findFieldRange "package main\nfunc main() \x7b\x7d" "User" "ID" (some "primaryKey") =
      ⟨⟨0, 0⟩, ⟨0, 1⟩⟩ :=
  C7_fallback_range "package main\nfunc main() \x7b\x7d" "User" "ID" (some "primaryKey")
    (by decide)

/-- C8: diagnostic output is a pure function of the parsed struct list:
whenever struct extraction yields the same `GoStruct` list for two texts
(in particular, for the same text validated twice), tag validation yields
byte-identical, identically ordered diagnostic lists. The embedding is a
pure function, mirroring the source, whose `Map`/`Set` containers iterate
in insertion order and whose validation reads no external state. -/
theorem C8_validation_deterministic (s1 s2 : String)
    (h : parseGoStructs s1 = parseGoStructs s2) :
    validateGormTags (parseGoStructs s1) = validateGormTags (parseGoStructs s2) := by
  rw [h]

/-- C8 (witness): two different texts - one with an extra comment line -
parse to the same struct list, hence validate to the same diagnostics. -/
theorem C8_validation_deterministic_witness :
    parseGoStructs "type A struct \x7b\n X int `gorm:\"primaryKey\"`\n\x7d" =
      parseGoStructs "type A struct \x7b\n // note\n X int `gorm:\"primaryKey\"`\n\x7d" ∧
    validateGormTags (parseGoStructs "type A struct \x7b\n X int `gorm:\"primaryKey\"`\n\x7d") =
      validateGormTags
        (parseGoStructs "type A struct \x7b\n // note\n X int `gorm:\"primaryKey\"`\n\x7d") :=
  have h : parseGoStructs "type A struct \x7b\n X int `gorm:\"primaryKey\"`\n\x7d" =
      parseGoStructs "type A struct \x7b\n // note\n X int `gorm:\"primaryKey\"`\n\x7d" := by
    decide
  ⟨h, C8_validation_deterministic _ _ h⟩

/-- C9: a caller-supplied diagnostic cap of 0 is falsy in
`settings.maxNumberOfProblems || 1000`, so the documented default 1000
applies: with cap 0 the emitted list is the first `min 1000 n` of the `n`
available diagnostics - up to 1000 are still emitted, not zero. -/
theorem C9_zero_cap_uses_default :
    maxProblemsOf 0 = 1000 ∧
    ∀ ds : List GormDiagnostic, (limitedDiagnostics 0 ds).length = min 1000 ds.length :=
  ⟨rfl, fun ds => by simp [limitedDiagnostics, maxProblemsOf]⟩

/-- C10: the primary-key multiplicity check counts entries, not distinct
fields: a single field `ID` tagged `primaryKey;primaryKey` contributes its
name twice to the primary-key list, so the struct-wide check fires and the
field receives two multiplicity errors in addition to the duplicate-key
error. -/
theorem C10_pk_entries_counted :
    (runFields "User" ⟨[], [], []⟩ false
      [⟨"ID", "uint", "primaryKey;primaryKey"⟩]).1.1.primaryKeyFields = ["ID", "ID"] ∧
    validateGormTags [⟨"User", [⟨"ID", "uint", "primaryKey;primaryKey"⟩]⟩] =
      [⟨"User", "ID", "primaryKey;primaryKey",
        "Duplicate GORM tag key 'primaryKey' in field", .error, some "primaryKey"⟩,
       ⟨"User", "ID", "primaryKey;primaryKey", pkMsg, .error, none⟩,
       ⟨"User", "ID", "primaryKey;primaryKey", pkMsg, .error, none⟩] := by
  constructor <;> decide

set_option maxHeartbeats 8000000 in
/-- C4 (amended): a field whose entries include `foreignKey` without
`references` receives the pairing warning; a field with both receives no
pairing warning only when `references` precedes `foreignKey` in the literal
- when `foreignKey` comes first, one pairing warning is still emitted while
processing the `foreignKey` entry, because the combination check sees only
the keys read so far. -/
theorem C4_foreignkey_pairing (sn fn ty : String) :
    (validateGormTags [⟨sn, [⟨fn, ty, "foreignKey:OwnerID"⟩]⟩]).filter
      (fun d => d.message ==
        "'foreignKey' should be used together with 'references' for proper relationship definition.") =
      [⟨sn, fn, "foreignKey:OwnerID",
        "'foreignKey' should be used together with 'references' for proper relationship definition.",
        .warning, some "foreignKey"⟩] ∧
    (validateGormTags [⟨sn, [⟨fn, ty, "references:ID;foreignKey:OwnerID"⟩]⟩]).filter
      (fun d => d.message ==
        "'foreignKey' should be used together with 'references' for proper relationship definition.") =
      [] ∧
    (validateGormTags [⟨sn, [⟨fn, ty, "foreignKey:OwnerID;references:ID"⟩]⟩]).filter
      (fun d => d.message ==
        "'foreignKey' should be used together with 'references' for proper relationship definition.") =
      [⟨sn, fn, "foreignKey:OwnerID;references:ID",
        "'foreignKey' should be used together with 'references' for proper relationship definition.",
        .warning, some "foreignKey"⟩] :=
  ⟨rfl, rfl, rfl⟩

/-- C5 (counterexample): a field carrying both timestamp-tracking keys in the
order `autoUpdateTime;autoCreateTime` receives NO co-occurrence finding at
all (the check fires only while processing an `autoupdatetime` entry with
`autocreatetime` already seen), contradicting the claim that the finding is
emitted in either order. -/
theorem C5_counterexample :
    validateGormTags [⟨"User", [⟨"CreatedAt", "int64", "autoUpdateTime;autoCreateTime"⟩]⟩] =
      [] ∧
    ((validateGormTags [⟨"User", [⟨"CreatedAt", "int64", "autoUpdateTime;autoCreateTime"⟩]⟩]).filter
      (fun d => d.message ==
        "Field has both creation and update time tracking. Ensure this is intentional.")).length ≠
      1 := by
  constructor <;> decide

set_option maxHeartbeats 8000000 in
/-- C5 (amended): a field whose entries include both timestamp-tracking keys
receives exactly one co-occurrence finding, emitted with warning severity,
when `autoCreateTime` precedes `autoUpdateTime` in the literal; with the
opposite order no finding is emitted. -/
theorem C5_time_tracking_order (sn fn ty : String) :
    validateGormTags [⟨sn, [⟨fn, ty, "autoCreateTime;autoUpdateTime"⟩]⟩] =
      [⟨sn, fn, "autoCreateTime;autoUpdateTime",
        "Field has both creation and update time tracking. Ensure this is intentional.",
        .warning, some "autoUpdateTime"⟩] ∧
    validateGormTags [⟨sn, [⟨fn, ty, "autoUpdateTime;autoCreateTime"⟩]⟩] = [] :=
  ⟨rfl, rfl⟩

/-- C6: the quote-balance check counts unescaped quotes of each kind (a
quote preceded by a backslash is skipped; a quote inside a span opened by
the other kind is not counted) and errors exactly when a count is odd:
`it's` yields the error citing 1 unbalanced single quote; `a\'b` yields no
error; `"it's fine"` (single quote inside a double-quoted span) yields no
error; and a comment value with both kinds balanced yields only the
mixed-quote-style warning from `validateTagValue` and no error. -/
theorem C6_quote_balance :
    (∀ value : String, (checkQuoteClosure value).hasError = true ↔
      ((quoteCounts value).1 % 2 = 1 ∨ (quoteCounts value).2 % 2 = 1)) ∧
    checkQuoteClosure "it's" =
      ⟨true, some "single",
        some "Found 1 single quotes, expected even number for proper closure."⟩ ∧
    checkQuoteClosure "a\\'b" = ⟨false, none, none⟩ ∧
    checkQuoteClosure "\"it's fine\"" = ⟨false, none, none⟩ ∧
    ∀ sn fn tg : String, validateTagValue "comment" "'a' \"b\"" sn fn tg "comment" =
      [⟨sn, fn, tg,
        "Comment value contains both single and double quotes. Consider using consistent quote style or proper escaping.",
        .warning, some "comment"⟩] := by
  refine ⟨?_, by decide, by decide, by decide, fun sn fn tg => rfl⟩
  intro value
  unfold checkQuoteClosure
  dsimp only
  split_ifs with h1 h2 <;> simp <;> omega
